import Mathlib

/-
  Verification of the time-driven animation and camera-control core of a
  browser-based solar-system visualization.

  The embedding below translates the relevant source functions into Lean:
  * `orbitLocalPosition` — the orbital kinematics formula shared by all
    consumers (Planet useFrame, CameraController orbit targeting);
  * `frameUpdate` — the per-frame clock advance and galactic origin
    displacement from SolarSystemScene's useFrame callback;
  * `setGalacticMotion` / `applyGalacticEffect` — the edge-triggered
    useEffect on the galacticMotion flag;
  * `generateHelixVertex` / `generateHelixVertices` — the helix-mode orbit
    path generator from OrbitLines.tsx;
  * `handleOrbitCameraMovement` / `handleFreeCameraMovement` — the camera
    controller's two per-frame movement handlers;
  * `eulerFromOrientationYXZ` — the three.js YXZ Euler extraction used when
    switching camera modes.

  Vectors are modelled over ℝ (the source uses float64 three.js vectors).
-/

namespace Solar

/-- Three-component real vector, modelling a three.js Vector3. -/
@[ext]
structure Vec3 where
  x : ℝ
  y : ℝ
  z : ℝ

instance : Add Vec3 :=
  ⟨fun a b => ⟨a.x + b.x, a.y + b.y, a.z + b.z⟩⟩

instance : Sub Vec3 :=
  ⟨fun a b => ⟨a.x - b.x, a.y - b.y, a.z - b.z⟩⟩

instance : SMul ℝ Vec3 :=
  ⟨fun r v => ⟨r * v.x, r * v.y, r * v.z⟩⟩

instance : Zero Vec3 :=
  ⟨⟨0, 0, 0⟩⟩

/-- Squared euclidean length of a vector. -/
def Vec3.normSq (v : Vec3) : ℝ :=
  v.x ^ 2 + v.y ^ 2 + v.z ^ 2

/-- Euclidean length, as three.js `Vector3.length()`. -/
noncomputable def Vec3.length (v : Vec3) : ℝ :=
  Real.sqrt v.normSq

/-- three.js `Vector3.normalize()`: divides by the length, or by 1 when the
length is zero (`divideScalar(length || 1)`). -/
noncomputable def Vec3.normalize (v : Vec3) : Vec3 :=
  if v.length = 0 then v else (1 / v.length) • v

/-- three.js `Vector3.lerp(target, alpha)`: each component moves by
`alpha` times its distance to the target component. -/
noncomputable def Vec3.lerp (a b : Vec3) (t : ℝ) : Vec3 :=
  a + t • (b - a)

/-! ### Constants from src/constants/galacticMotion.ts and the components -/

/-- Galactic motion speed — how fast the Sun moves forward. -/
def GALACTIC_MOTION_SPEED : ℝ := 5

/-- Number of complete helix turns shown in orbit trails. -/
def HELIX_TURNS : ℕ := 5

/-- Number of complete orbits to advance when entering galactic mode. -/
def INITIAL_ORBIT_ADVANCE : ℝ := 15

/-- Speed multiplier applied in galactic motion mode. -/
def GALACTIC_SPEED_MULTIPLIER : ℝ := 2

/-- Number of segments for orbit circles (OrbitLines.tsx). -/
def ORBIT_SEGMENTS : ℕ := 64

/-- Free-camera base movement speed (CameraController.tsx). -/
def BASE_SPEED : ℝ := 50

/-- Free-camera boost multiplier (CameraController.tsx). -/
def BOOST_MULTIPLIER : ℝ := 3

/-- Fixed direction vector for galactic motion, `new Vector3(0,0,1).normalize()`
from SolarSystemScene.tsx. -/
noncomputable def GALACTIC_DIRECTION : Vec3 :=
  Vec3.normalize ⟨0, 0, 1⟩

/-! ### Orbital kinematics -/

/-- The orbital kinematics contract: orbit-local position
`(cos(time·orbitSpeed)·distance, 0, sin(time·orbitSpeed)·distance)`. -/
noncomputable def orbitLocalPosition (time distance orbitSpeed : ℝ) : Vec3 :=
  ⟨Real.cos (time * orbitSpeed) * distance, 0, Real.sin (time * orbitSpeed) * distance⟩

/-- Planet useFrame body placement: orbital position relative to the Sun, then
translated by the Sun's current position (Planet component). -/
noncomputable def planetWorldPosition (time orbitSpeed distance : ℝ) (sunPosition : Vec3) : Vec3 :=
  let angle := time * orbitSpeed
  let orbitalX := Real.cos angle * distance
  let orbitalZ := Real.sin angle * distance
  ⟨orbitalX + sunPosition.x, sunPosition.y, orbitalZ + sunPosition.z⟩

/-! ### Simulation clock and galactic frame (SolarSystemScene useFrame) -/

/-- Mutable per-frame scene state: simulation time and the Sun's position. -/
structure SceneState where
  time : ℝ
  sunPosition : Vec3

/-- Effective time scale: `timeScale * GALACTIC_SPEED_MULTIPLIER` in galactic
mode, else `timeScale`. -/
noncomputable def effectiveTimeScale (galacticMotion : Bool) (timeScale : ℝ) : ℝ :=
  if galacticMotion then timeScale * GALACTIC_SPEED_MULTIPLIER else timeScale

/-- One useFrame callback of SolarSystemScene: while playing, advance time by
`delta * effectiveTimeScale` and, in galactic mode, displace the Sun along
`GALACTIC_DIRECTION` by `delta * effectiveTimeScale * GALACTIC_MOTION_SPEED`. -/
noncomputable def frameUpdate (isPlaying galacticMotion : Bool) (timeScale delta : ℝ)
    (s : SceneState) : SceneState :=
  if isPlaying then
    let ets := effectiveTimeScale galacticMotion timeScale
    { time := s.time + delta * ets
      sunPosition :=
        if galacticMotion then
          s.sunPosition + (delta * ets * GALACTIC_MOTION_SPEED) • GALACTIC_DIRECTION
        else s.sunPosition }
  else s

/-! ### Galactic mode toggle (SolarSystemScene useEffect) -/

/-- Scene state together with the galacticMotion flag. -/
structure GState where
  galacticMotion : Bool
  time : ℝ
  sunPosition : Vec3

/-- Body of the useEffect on `[galacticMotion]`: entering galactic mode
advances time by `2π * INITIAL_ORBIT_ADVANCE`; leaving it resets the Sun
position to the zero vector. -/
noncomputable def applyGalacticEffect (s : GState) : GState :=
  if s.galacticMotion then
    { s with time := s.time + Real.pi * 2 * INITIAL_ORBIT_ADVANCE }
  else
    { s with sunPosition := 0 }

/-- Setting the galacticMotion flag: the effect body runs exactly when the
flag's value changes (React useEffect dependency semantics). -/
noncomputable def setGalacticMotion (b : Bool) (s : GState) : GState :=
  if b = s.galacticMotion then s
  else applyGalacticEffect { s with galacticMotion := b }

/-- Events driving the scene state: a rendered frame (with the store's
isPlaying and timeScale at that frame) or a galacticMotion toggle. -/
inductive SimEvent where
  | frame (isPlaying : Bool) (timeScale delta : ℝ)
  | setGalactic (b : Bool)

/-- One step of the scene state machine. -/
noncomputable def simStep (e : SimEvent) (s : GState) : GState :=
  match e with
  | .frame p ts d =>
      let s2 := frameUpdate p s.galacticMotion ts d ⟨s.time, s.sunPosition⟩
      { s with time := s2.time, sunPosition := s2.sunPosition }
  | .setGalactic b => setGalacticMotion b s

/-- Run a list of events from a state. -/
noncomputable def simRun (es : List SimEvent) (s : GState) : GState :=
  es.foldl (fun s e => simStep e s) s

/-- The mount-time state: galactic motion off, time 0, Sun at the origin. -/
def initialGState : GState :=
  ⟨false, 0, ⟨0, 0, 0⟩⟩

/-- A state is reachable when some event sequence produces it from the
mount-time state. -/
def ReachableG (s : GState) : Prop :=
  ∃ es, simRun es initialGState = s

/-! ### Helix-mode orbit path (OrbitLines.tsx, generateHelixVertices) -/

/-- Angle of the i-th helix sample: going backward in time from the body's
current angle `currentTime * orbitSpeed`, by `i / totalSegments` of
`2π * HELIX_TURNS` radians. -/
noncomputable def helixSampleAngle (orbitSpeed : ℝ) (segments : ℕ) (currentTime : ℝ)
    (i : ℕ) : ℝ :=
  let totalSegments : ℕ := segments * HELIX_TURNS
  let currentAngle := currentTime * orbitSpeed
  currentAngle - ((i : ℝ) / (totalSegments : ℝ)) * (Real.pi * 2 * (HELIX_TURNS : ℝ))

/-- The i-th vertex of a helix-mode orbit trail: circular motion of the given
radius in the X-Y plane at the backward-sampled angle, a fixed height offset,
and a longitudinal (Z) trail displacement proportional to backward progress. -/
noncomputable def generateHelixVertex (radius orbitSpeed : ℝ) (segments : ℕ)
    (currentTime heightOffset : ℝ) (i : ℕ) : Vec3 :=
  let totalSegments : ℕ := segments * HELIX_TURNS
  let orbitPeriod := Real.pi * 2 / orbitSpeed
  let forwardDistancePerOrbit := orbitPeriod * GALACTIC_MOTION_SPEED
  let totalTrailDistance := forwardDistancePerOrbit * (HELIX_TURNS : ℝ)
  let angle := helixSampleAngle orbitSpeed segments currentTime i
  let progress := (i : ℝ) / (totalSegments : ℝ)
  ⟨Real.cos angle * radius, Real.sin angle * radius + heightOffset,
    -progress * totalTrailDistance⟩

/-- The full helix vertex list: `segments * HELIX_TURNS` samples, index 0 at
the body's current angular position, later indices trailing backward. -/
noncomputable def generateHelixVertices (radius orbitSpeed : ℝ) (segments : ℕ)
    (currentTime heightOffset : ℝ) : List Vec3 :=
  (List.range (segments * HELIX_TURNS)).map
    (generateHelixVertex radius orbitSpeed segments currentTime heightOffset)

/-! ### Orbit-follow camera (CameraController.tsx, handleOrbitCameraMovement) -/

/-- The per-body orbital parameters the camera controller reads from the
selected body. -/
structure OrbitBody where
  distance : ℝ
  orbitSpeed : ℝ

/-- One orbit-mode camera frame: with a selected body, lerp the look-at target
toward the body's world position with factor `5 * delta`; with none, lerp it
toward the Sun's position with factor `2 * delta`. Returns the new target. -/
noncomputable def handleOrbitCameraMovement (selectedBody : Option OrbitBody)
    (time : ℝ) (sunPosition : Vec3) (delta : ℝ) (currentTarget : Vec3) : Vec3 :=
  match selectedBody with
  | some body =>
      let angle := time * body.orbitSpeed
      let orbitalX := Real.cos angle * body.distance
      let orbitalZ := Real.sin angle * body.distance
      let targetPosition : Vec3 :=
        ⟨orbitalX + sunPosition.x, sunPosition.y, orbitalZ + sunPosition.z⟩
      let lerpFactor := 5 * delta
      currentTarget.lerp targetPosition lerpFactor
  | none =>
      let targetPosition := sunPosition
      let lerpFactor := 2 * delta
      currentTarget.lerp targetPosition lerpFactor

/-! ### Free-fly camera (CameraController.tsx, handleFreeCameraMovement) -/

/-- Keyboard state for the free camera. -/
structure KeyState where
  forward : Bool
  backward : Bool
  left : Bool
  right : Bool
  up : Bool
  down : Bool
  boost : Bool

/-- The raw movement vector accumulated from the pressed direction flags. -/
noncomputable def moveDirectionOfKeys (k : KeyState) : Vec3 :=
  ⟨(if k.left then -1 else 0) + (if k.right then 1 else 0),
   (if k.up then 1 else 0) + (if k.down then -1 else 0),
   (if k.forward then -1 else 0) + (if k.backward then 1 else 0)⟩

/-- Rotation about the X axis by `theta` (right-handed). -/
noncomputable def rotateX (theta : ℝ) (v : Vec3) : Vec3 :=
  ⟨v.x, Real.cos theta * v.y - Real.sin theta * v.z,
    Real.sin theta * v.y + Real.cos theta * v.z⟩

/-- Rotation about the Y axis by `theta` (right-handed). -/
noncomputable def rotateY (theta : ℝ) (v : Vec3) : Vec3 :=
  ⟨Real.cos theta * v.x + Real.sin theta * v.z, v.y,
    -Real.sin theta * v.x + Real.cos theta * v.z⟩

/-- three.js `applyEuler(new Euler(pitch, yaw, 0, "YXZ"))`: rotate about X by
the pitch, then about Y by the yaw. -/
noncomputable def applyEulerYXZ (pitch yaw : ℝ) (v : Vec3) : Vec3 :=
  rotateY yaw (rotateX pitch v)

/-- One free-mode camera frame: build the movement vector from the pressed
keys, normalize it when non-zero, rotate it by the current yaw/pitch, scale by
speed (boosted while boost is held) times `delta`, and add it to the camera
position. Returns the new camera position. -/
noncomputable def handleFreeCameraMovement (keys : KeyState) (yaw pitch : ℝ)
    (delta : ℝ) (cameraPosition : Vec3) : Vec3 :=
  let speed := if keys.boost then BASE_SPEED * BOOST_MULTIPLIER else BASE_SPEED
  let moveDirection := moveDirectionOfKeys keys
  let moveDirection2 := if moveDirection.length > 0 then moveDirection.normalize else moveDirection
  let moveDirection3 := applyEulerYXZ pitch yaw moveDirection2
  cameraPosition + (speed * delta) • moveDirection3

/-! ### Camera-mode switch: YXZ Euler extraction (three.js, used by the
CameraController useEffect on cameraMode) -/

/-- three.js `MathUtils.clamp(value, min, max)`. -/
noncomputable def clampR (value minv maxv : ℝ) : ℝ :=
  max minv (min maxv value)

/-- Two-argument arctangent, `Math.atan2(y, x)`, modelled as the argument of
the complex number `x + y·i`. -/
noncomputable def atan2 (y x : ℝ) : ℝ :=
  Complex.arg ⟨x, y⟩

/-- three.js `Euler.setFromQuaternion(q, "YXZ")` on a camera orientation given
as a rotation map: returns `(pitch, yaw)`, i.e. the Euler x and y components,
read off the rotation-matrix entries of the orientation. -/
noncomputable def eulerFromOrientationYXZ (o : Vec3 → Vec3) : ℝ × ℝ :=
  let m13 := (o ⟨0, 0, 1⟩).x
  let m23 := (o ⟨0, 0, 1⟩).y
  let m33 := (o ⟨0, 0, 1⟩).z
  let m11 := (o ⟨1, 0, 0⟩).x
  let m31 := (o ⟨1, 0, 0⟩).z
  let ex := Real.arcsin (-(clampR m23 (-1) 1))
  let ey := if |m23| < 0.9999999 then atan2 m13 m33 else atan2 (-m31) m11
  (ex, ey)

/-- The orbit→free→orbit orientation round trip with no input in between:
switching to free mode re-derives yaw/pitch from the current orientation, and
the free-mode frame sets the orientation from exactly those yaw/pitch
(`camera.quaternion.setFromEuler(new Euler(pitch, yaw, 0, "YXZ"))`); switching
back to orbit mode does not modify the orientation. -/
noncomputable def roundTripOrientation (o : Vec3 → Vec3) : Vec3 → Vec3 :=
  let e := eulerFromOrientationYXZ o
  applyEulerYXZ e.1 e.2

/-! ### Component lemmas for the vector operations -/

@[simp]
theorem Vec3.add_x (a b : Vec3) : (a + b).x = a.x + b.x := rfl

@[simp]
theorem Vec3.add_y (a b : Vec3) : (a + b).y = a.y + b.y := rfl

@[simp]
theorem Vec3.add_z (a b : Vec3) : (a + b).z = a.z + b.z := rfl

@[simp]
theorem Vec3.sub_x (a b : Vec3) : (a - b).x = a.x - b.x := rfl

@[simp]
theorem Vec3.sub_y (a b : Vec3) : (a - b).y = a.y - b.y := rfl

@[simp]
theorem Vec3.sub_z (a b : Vec3) : (a - b).z = a.z - b.z := rfl

@[simp]
theorem Vec3.smul_x (r : ℝ) (v : Vec3) : (r • v).x = r * v.x := rfl

@[simp]
theorem Vec3.smul_y (r : ℝ) (v : Vec3) : (r • v).y = r * v.y := rfl

@[simp]
theorem Vec3.smul_z (r : ℝ) (v : Vec3) : (r • v).z = r * v.z := rfl

@[simp]
theorem Vec3.zero_x : (0 : Vec3).x = 0 := rfl

@[simp]
theorem Vec3.zero_y : (0 : Vec3).y = 0 := rfl

@[simp]
theorem Vec3.zero_z : (0 : Vec3).z = 0 := rfl

/-- The fixed galactic direction evaluates to the unit vector (0, 0, 1). -/
theorem galacticDirection_eq : GALACTIC_DIRECTION = ⟨0, 0, 1⟩ := by
  have hlen : (Vec3.mk 0 0 1).length = 1 := by
    simp [Vec3.length, Vec3.normSq]
  unfold GALACTIC_DIRECTION Vec3.normalize
  rw [hlen]
  norm_num
  ext <;> simp

/-! ### Claim theorems -/

/-- C1: the orbital kinematics used by planet placement and camera targeting
returns the orbit-local position `(cos(t·s)·d, 0, sin(t·s)·d)` (translated by
the Sun position for world placement); the returned point is at exactly
distance `d` from the orbit-local origin, and the function is periodic in `t`
with period `2π/s`. -/
theorem orbital_kinematics_contract (t d s : ℝ) (sun cur : Vec3) (dl : ℝ)
    (b : OrbitBody) (hd : 0 ≤ d) :
    orbitLocalPosition t d s =
        ⟨Real.cos (t * s) * d, 0, Real.sin (t * s) * d⟩
      ∧ planetWorldPosition t s d sun = orbitLocalPosition t d s + sun
      ∧ handleOrbitCameraMovement (some b) t sun dl cur =
          cur.lerp (orbitLocalPosition t b.distance b.orbitSpeed + sun) (5 * dl)
      ∧ (orbitLocalPosition t d s).length = d
      ∧ orbitLocalPosition (t + 2 * Real.pi / s) d s = orbitLocalPosition t d s := by
  refine ⟨rfl, ?_, ?_, ?_, ?_⟩
  · ext <;> simp [planetWorldPosition, orbitLocalPosition]
  · have htgt : (Vec3.mk (Real.cos (t * b.orbitSpeed) * b.distance + sun.x) sun.y
        (Real.sin (t * b.orbitSpeed) * b.distance + sun.z)) =
        orbitLocalPosition t b.distance b.orbitSpeed + sun := by
      ext <;> simp [orbitLocalPosition]
    simp only [handleOrbitCameraMovement]
    rw [htgt]
  · have hsq : (orbitLocalPosition t d s).normSq = d ^ 2 := by
      have h := Real.sin_sq_add_cos_sq (t * s)
      simp only [orbitLocalPosition, Vec3.normSq]
      nlinarith [h]
    simp only [Vec3.length, hsq]
    exact Real.sqrt_sq hd
  · rcases eq_or_ne s 0 with hs | hs
    · subst hs
      simp [orbitLocalPosition]
    · have hangle : (t + 2 * Real.pi / s) * s = t * s + 2 * Real.pi := by
        field_simp
      simp only [orbitLocalPosition, hangle, Real.cos_add_two_pi, Real.sin_add_two_pi]

/-- Witness for C1 at `t = 0, d = 1, s = 1`. -/
theorem orbital_kinematics_contract_witness :
    (0 : ℝ) ≤ 1 ∧ (orbitLocalPosition 0 1 1).length = 1 :=
  ⟨by norm_num,
    (orbital_kinematics_contract 0 1 1 0 0 0 ⟨1, 1⟩ (by norm_num)).2.2.2.1⟩

/-- C2: while paused a frame leaves time unchanged; while playing a frame adds
exactly `delta * effectiveTimeScale`, where the effective time scale is
`timeScale * GALACTIC_SPEED_MULTIPLIER` (multiplier 2) in galactic mode and
`timeScale` otherwise; resuming from a paused frame and advancing one
non-galactic frame adds exactly `delta * timeScale`. -/
theorem clock_frame_update (g g0 : Bool) (ts d ts0 d0 : ℝ) (s : SceneState) :
    (frameUpdate false g ts d s).time = s.time
  ∧ (frameUpdate true g ts d s).time = s.time + d * effectiveTimeScale g ts
  ∧ effectiveTimeScale true ts = ts * GALACTIC_SPEED_MULTIPLIER
  ∧ GALACTIC_SPEED_MULTIPLIER = 2
  ∧ effectiveTimeScale false ts = ts
  ∧ (frameUpdate true false ts d (frameUpdate false g0 ts0 d0 s)).time =
      s.time + d * ts := by
  refine ⟨rfl, ?_, rfl, rfl, rfl, ?_⟩
  · simp [frameUpdate]
  · simp [frameUpdate, effectiveTimeScale]

/-- C3: the galactic-motion toggle is edge-triggered — an off→on edge advances
time by exactly `2π * INITIAL_ORBIT_ADVANCE` (advance constant 15) and fires
once per edge (setting the flag to its current value is a no-op); an on→off
edge resets the Sun position to the zero vector and leaves time unchanged; on
then immediately off leaves the Sun position at the zero vector. -/
theorem galactic_toggle_edges (s : GState) :
    (s.galacticMotion = false →
      setGalacticMotion true s =
        ⟨true, s.time + Real.pi * 2 * INITIAL_ORBIT_ADVANCE, s.sunPosition⟩)
  ∧ (s.galacticMotion = true → setGalacticMotion true s = s)
  ∧ (s.galacticMotion = true →
      (setGalacticMotion false s).sunPosition = 0
        ∧ (setGalacticMotion false s).time = s.time)
  ∧ INITIAL_ORBIT_ADVANCE = 15
  ∧ (s.galacticMotion = false →
      (setGalacticMotion false (setGalacticMotion true s)).sunPosition = 0
        ∧ (setGalacticMotion false (setGalacticMotion true s)).time =
            s.time + Real.pi * 2 * INITIAL_ORBIT_ADVANCE) := by
  refine ⟨?_, ?_, ?_, rfl, ?_⟩
  · intro h
    simp [setGalacticMotion, applyGalacticEffect, h]
  · intro h
    simp [setGalacticMotion, h]
  · intro h
    constructor <;> simp [setGalacticMotion, applyGalacticEffect, h]
  · intro h
    constructor <;> simp [setGalacticMotion, applyGalacticEffect, h]

/-- Witness for C3 at the mount-time state. -/
theorem galactic_toggle_edges_witness :
    initialGState.galacticMotion = false
  ∧ (setGalacticMotion false (setGalacticMotion true initialGState)).sunPosition = 0 :=
  ⟨rfl, ((galactic_toggle_edges initialGState).2.2.2.2 rfl).1⟩

/-- C4: while playing in galactic mode, a frame increments the Sun position by
exactly `direction • (delta * effectiveTimeScale * GALACTIC_MOTION_SPEED)`,
with direction the unit vector (0,0,1) and motion speed 5; from the zero
vector a single such frame yields exactly that displacement. -/
theorem galactic_origin_frame_displacement (ts d t0 : ℝ) (s : SceneState) :
    (frameUpdate true true ts d s).sunPosition =
        s.sunPosition +
          (d * effectiveTimeScale true ts * GALACTIC_MOTION_SPEED) • GALACTIC_DIRECTION
  ∧ GALACTIC_DIRECTION = ⟨0, 0, 1⟩
  ∧ GALACTIC_MOTION_SPEED = 5
  ∧ (frameUpdate true true ts d ⟨t0, 0⟩).sunPosition =
      (d * effectiveTimeScale true ts * GALACTIC_MOTION_SPEED) • GALACTIC_DIRECTION := by
  refine ⟨?_, galacticDirection_eq, rfl, ?_⟩
  · simp [frameUpdate]
  · ext <;> simp [frameUpdate]

/-- C9: a frame with isPlaying false changes nothing — in particular the Sun
position is unchanged even when galactic motion is enabled, because the origin
displacement sits inside the playing branch of the frame update. -/
theorem paused_frame_freezes_origin (g : Bool) (ts d : ℝ) (s : SceneState)
    (gs : GState) :
    frameUpdate false g ts d s = s
  ∧ (frameUpdate false true ts d s).sunPosition = s.sunPosition
  ∧ simStep (.frame false ts d) gs = gs := by
  refine ⟨rfl, rfl, ?_⟩
  simp [simStep, frameUpdate]

/-- Every simulation step keeps the Sun position on the world z-axis. -/
theorem simStep_preserves_z_axis (e : SimEvent) (s : GState)
    (h : s.sunPosition.x = 0 ∧ s.sunPosition.y = 0) :
    (simStep e s).sunPosition.x = 0 ∧ (simStep e s).sunPosition.y = 0 := by
  cases e with
  | frame p ts d =>
      cases p <;> cases hg : s.galacticMotion <;>
        simp [simStep, frameUpdate, hg, galacticDirection_eq, h.1, h.2]
  | setGalactic b =>
      by_cases hb : b = s.galacticMotion <;> cases b <;>
        simp [simStep, setGalacticMotion, applyGalacticEffect, hb, h.1, h.2]

/-- Running any event list keeps the Sun position on the world z-axis. -/
theorem simRun_preserves_z_axis (es : List SimEvent) (s : GState)
    (h : s.sunPosition.x = 0 ∧ s.sunPosition.y = 0) :
    (simRun es s).sunPosition.x = 0 ∧ (simRun es s).sunPosition.y = 0 := by
  induction es generalizing s with
  | nil => simpa [simRun] using h
  | cons e es ih =>
      have hstep := simStep_preserves_z_axis e s h
      simpa [simRun] using ih (simStep e s) hstep

/-- C10: in every reachable state the Sun position lies on the world z-axis
(x and y components exactly 0); with nonnegative frame delta and time scale
the z component never decreases on a frame step, and a toggle step either
leaves the Sun position unchanged or resets it to the zero vector. -/
theorem origin_on_z_axis (s : GState) (h : ReachableG s) :
    (s.sunPosition.x = 0 ∧ s.sunPosition.y = 0)
  ∧ (∀ (p : Bool) (ts d : ℝ) (s0 : GState), 0 ≤ ts → 0 ≤ d →
      s0.sunPosition.z ≤ (simStep (.frame p ts d) s0).sunPosition.z)
  ∧ (∀ (b : Bool) (s0 : GState),
      (simStep (.setGalactic b) s0).sunPosition = s0.sunPosition
        ∨ (simStep (.setGalactic b) s0).sunPosition = 0) := by
  refine ⟨?_, ?_, ?_⟩
  · obtain ⟨es, rfl⟩ := h
    exact simRun_preserves_z_axis es initialGState ⟨rfl, rfl⟩
  · intro p ts d s0 hts hd
    cases p with
    | false => simp [simStep, frameUpdate]
    | true =>
        cases hg : s0.galacticMotion with
        | false => simp [simStep, frameUpdate, hg]
        | true =>
            have hnn : 0 ≤ d * (ts * GALACTIC_SPEED_MULTIPLIER) * GALACTIC_MOTION_SPEED := by
              have h2 : (0 : ℝ) ≤ ts * GALACTIC_SPEED_MULTIPLIER := by
                simp only [GALACTIC_SPEED_MULTIPLIER]
                linarith
              have h5 : (0 : ℝ) ≤ GALACTIC_MOTION_SPEED := by
                simp only [GALACTIC_MOTION_SPEED]
                norm_num
              exact mul_nonneg (mul_nonneg hd h2) h5
            simp only [simStep, frameUpdate, effectiveTimeScale, hg, if_true,
              galacticDirection_eq, Vec3.add_z, Vec3.smul_z]
            nlinarith [hnn]
  · intro b s0
    by_cases hb : b = s0.galacticMotion
    · left
      simp [simStep, setGalacticMotion, hb]
    · cases b with
      | false =>
          right
          simp [simStep, setGalacticMotion, applyGalacticEffect, hb]
      | true =>
          left
          simp [simStep, setGalacticMotion, applyGalacticEffect, hb]

/-- Witness for C10 at the mount-time state, reachable by the empty run. -/
theorem origin_on_z_axis_witness :
    ReachableG initialGState ∧ initialGState.sunPosition.x = 0 :=
  ⟨⟨[], rfl⟩, (origin_on_z_axis initialGState ⟨[], rfl⟩).1.1⟩

/-- A lerp with factor below 1 never reaches a target it is not already at. -/
theorem lerp_ne_target (cur w : Vec3) (f : ℝ) (hf : f < 1) (hne : cur ≠ w) :
    cur.lerp w f ≠ w := by
  have h1 : (1 - f) ≠ 0 := by linarith
  have hcomp : cur.x ≠ w.x ∨ cur.y ≠ w.y ∨ cur.z ≠ w.z := by
    by_contra hc
    push_neg at hc
    exact hne (by ext <;> [exact hc.1; exact hc.2.1; exact hc.2.2])
  intro heq
  rcases hcomp with hx | hy | hz
  · have hx2 : cur.x + f * (w.x - cur.x) = w.x := by
      simpa [Vec3.lerp] using congrArg Vec3.x heq
    have hzero : (1 - f) * (cur.x - w.x) = 0 := by linear_combination hx2
    rcases mul_eq_zero.mp hzero with h | h
    · exact h1 h
    · exact hx (by linarith)
  · have hy2 : cur.y + f * (w.y - cur.y) = w.y := by
      simpa [Vec3.lerp] using congrArg Vec3.y heq
    have hzero : (1 - f) * (cur.y - w.y) = 0 := by linear_combination hy2
    rcases mul_eq_zero.mp hzero with h | h
    · exact h1 h
    · exact hy (by linarith)
  · have hz2 : cur.z + f * (w.z - cur.z) = w.z := by
      simpa [Vec3.lerp] using congrArg Vec3.z heq
    have hzero : (1 - f) * (cur.z - w.z) = 0 := by linear_combination hz2
    rcases mul_eq_zero.mp hzero with h | h
    · exact h1 h
    · exact hz (by linarith)

/-- C6: in orbit-follow mode the look-at target is lerped toward the selected
body's world position (orbit-local kinematics plus the Sun position) with
factor `5 * delta`; with no selection it is lerped toward the Sun position
with the strictly slower factor `2 * delta`; with factor below 1 the target
is never snapped onto the goal. -/
theorem orbit_camera_lerp (b : OrbitBody) (t : ℝ) (sun cur : Vec3) (d : ℝ) :
    handleOrbitCameraMovement (some b) t sun d cur =
        cur.lerp (orbitLocalPosition t b.distance b.orbitSpeed + sun) (5 * d)
  ∧ handleOrbitCameraMovement none t sun d cur = cur.lerp sun (2 * d)
  ∧ (2 : ℝ) < 5
  ∧ (5 * d < 1 → cur ≠ orbitLocalPosition t b.distance b.orbitSpeed + sun →
      handleOrbitCameraMovement (some b) t sun d cur ≠
        orbitLocalPosition t b.distance b.orbitSpeed + sun)
  ∧ (2 * d < 1 → cur ≠ sun →
      handleOrbitCameraMovement none t sun d cur ≠ sun) := by
  have hsome : handleOrbitCameraMovement (some b) t sun d cur =
      cur.lerp (orbitLocalPosition t b.distance b.orbitSpeed + sun) (5 * d) := by
    have htgt : (Vec3.mk (Real.cos (t * b.orbitSpeed) * b.distance + sun.x) sun.y
        (Real.sin (t * b.orbitSpeed) * b.distance + sun.z)) =
        orbitLocalPosition t b.distance b.orbitSpeed + sun := by
      ext <;> simp [orbitLocalPosition]
    simp only [handleOrbitCameraMovement]
    rw [htgt]
  refine ⟨hsome, rfl, by norm_num, ?_, ?_⟩
  · intro hf hne
    rw [hsome]
    exact lerp_ne_target _ _ _ hf hne
  · intro hf hne
    exact lerp_ne_target _ _ _ hf hne

/-- Witness for C6: one slow frame toward a distinct target does not land on
the target. -/
theorem orbit_camera_lerp_witness :
    5 * ((1 : ℝ) / 10) < 1 ∧
      handleOrbitCameraMovement (some ⟨1, 0⟩) 0 0 (1 / 10) 0 ≠
        orbitLocalPosition 0 1 0 + 0 := by
  have hne : (0 : Vec3) ≠ orbitLocalPosition 0 1 0 + 0 := by
    intro h
    have hx := congrArg Vec3.x h
    simp [orbitLocalPosition] at hx
  exact ⟨by norm_num,
    (orbit_camera_lerp ⟨1, 0⟩ 0 0 0 (1 / 10)).2.2.2.1 (by norm_num) hne⟩

/-- The squared length of any vector is nonnegative. -/
theorem Vec3.normSq_nonneg (v : Vec3) : 0 ≤ v.normSq := by
  simp only [Vec3.normSq]
  positivity

/-- A nonzero vector has positive squared length. -/
theorem Vec3.normSq_pos (v : Vec3) (hv : v ≠ 0) : 0 < v.normSq := by
  rcases lt_or_eq_of_le (Vec3.normSq_nonneg v) with h | h
  · exact h
  · exfalso
    apply hv
    have hx : v.x ^ 2 = 0 := by
      have := sq_nonneg v.y
      have := sq_nonneg v.z
      have := sq_nonneg v.x
      simp only [Vec3.normSq] at h
      nlinarith
    have hy : v.y ^ 2 = 0 := by
      have := sq_nonneg v.y
      have := sq_nonneg v.z
      have := sq_nonneg v.x
      simp only [Vec3.normSq] at h
      nlinarith
    have hz : v.z ^ 2 = 0 := by
      have := sq_nonneg v.y
      have := sq_nonneg v.z
      have := sq_nonneg v.x
      simp only [Vec3.normSq] at h
      nlinarith
    ext
    · exact pow_eq_zero_iff (two_ne_zero) |>.mp hx
    · exact pow_eq_zero_iff (two_ne_zero) |>.mp hy
    · exact pow_eq_zero_iff (two_ne_zero) |>.mp hz

/-- A nonzero vector has positive length. -/
theorem Vec3.length_pos (v : Vec3) (hv : v ≠ 0) : 0 < v.length :=
  Real.sqrt_pos.mpr (Vec3.normSq_pos v hv)

/-- Scaling a vector scales its length by the absolute scalar. -/
theorem Vec3.length_smul (k : ℝ) (v : Vec3) : (k • v).length = |k| * v.length := by
  simp only [Vec3.length, Vec3.normSq, Vec3.smul_x, Vec3.smul_y, Vec3.smul_z]
  rw [show (k * v.x) ^ 2 + (k * v.y) ^ 2 + (k * v.z) ^ 2 =
      k ^ 2 * (v.x ^ 2 + v.y ^ 2 + v.z ^ 2) by ring]
  rw [Real.sqrt_mul (sq_nonneg k), Real.sqrt_sq_eq_abs]

/-- Normalizing a nonzero vector yields a unit-length vector. -/
theorem Vec3.normalize_length_one (v : Vec3) (hv : v ≠ 0) :
    v.normalize.length = 1 := by
  have hlpos : 0 < v.length := Vec3.length_pos v hv
  have hlne : v.length ≠ 0 := ne_of_gt hlpos
  simp only [Vec3.normalize, if_neg hlne]
  rw [Vec3.length_smul, abs_of_pos (one_div_pos.mpr hlpos), one_div,
    inv_mul_cancel₀ hlne]

/-- The zero vector has length zero. -/
theorem Vec3.length_zero_vec : (0 : Vec3).length = 0 := by
  simp [Vec3.length, Vec3.normSq]

/-- The YXZ Euler rotation of the zero vector is zero. -/
theorem applyEulerYXZ_zero (p yw : ℝ) : applyEulerYXZ p yw 0 = 0 := by
  ext <;> simp [applyEulerYXZ, rotateX, rotateY]

/-- Scaling the zero vector gives the zero vector. -/
theorem Vec3.smul_zero_vec (k : ℝ) : k • (0 : Vec3) = 0 := by
  ext <;> simp

/-- Adding the zero vector is the identity. -/
theorem Vec3.add_zero_vec (a : Vec3) : a + 0 = a := by
  ext <;> simp

/-- Rotation about X preserves the squared length. -/
theorem rotateX_normSq (th : ℝ) (v : Vec3) : (rotateX th v).normSq = v.normSq := by
  have h := Real.sin_sq_add_cos_sq th
  simp only [rotateX, Vec3.normSq]
  linear_combination (v.y ^ 2 + v.z ^ 2) * h

/-- Rotation about Y preserves the squared length. -/
theorem rotateY_normSq (th : ℝ) (v : Vec3) : (rotateY th v).normSq = v.normSq := by
  have h := Real.sin_sq_add_cos_sq th
  simp only [rotateY, Vec3.normSq]
  linear_combination (v.x ^ 2 + v.z ^ 2) * h

/-- The YXZ Euler rotation preserves length. -/
theorem applyEulerYXZ_length (p yw : ℝ) (v : Vec3) :
    (applyEulerYXZ p yw v).length = v.length := by
  simp only [applyEulerYXZ, Vec3.length, rotateY_normSq, rotateX_normSq]

/-- Adding then subtracting the same vector is the identity. -/
theorem Vec3.add_sub_cancel_left (a b : Vec3) : (a + b) - a = b := by
  ext <;> simp

/-- C7: each free-fly frame displaces the camera by the key-flag movement
vector, normalized to unit length when non-zero, rotated by yaw/pitch, and
scaled by `BASE_SPEED (50) × BOOST_MULTIPLIER (3, only under boost) × delta`;
the displacement magnitude is exactly `speed * |delta|`, and with no movement
keys pressed the position is unchanged. -/
theorem free_camera_movement (keys : KeyState) (yaw pitch d : ℝ) (pos : Vec3) :
    handleFreeCameraMovement keys yaw pitch d pos =
        pos + ((if keys.boost then BASE_SPEED * BOOST_MULTIPLIER else BASE_SPEED) * d) •
          applyEulerYXZ pitch yaw
            (if (moveDirectionOfKeys keys).length > 0 then
              (moveDirectionOfKeys keys).normalize
             else moveDirectionOfKeys keys)
  ∧ BASE_SPEED = 50
  ∧ BOOST_MULTIPLIER = 3
  ∧ (moveDirectionOfKeys keys ≠ 0 →
      ((moveDirectionOfKeys keys).normalize).length = 1)
  ∧ (moveDirectionOfKeys keys ≠ 0 →
      (handleFreeCameraMovement keys yaw pitch d pos - pos).length =
        |(if keys.boost then BASE_SPEED * BOOST_MULTIPLIER else BASE_SPEED) * d|)
  ∧ (∀ bst : Bool,
      handleFreeCameraMovement ⟨false, false, false, false, false, false, bst⟩
        yaw pitch d pos = pos) := by
  refine ⟨rfl, rfl, rfl, ?_, ?_, ?_⟩
  · intro hne
    exact Vec3.normalize_length_one _ hne
  · intro hne
    have hlen : (moveDirectionOfKeys keys).length > 0 :=
      Vec3.length_pos _ hne
    simp only [handleFreeCameraMovement, if_pos hlen]
    rw [Vec3.add_sub_cancel_left, Vec3.length_smul, applyEulerYXZ_length,
      Vec3.normalize_length_one _ hne, mul_one]
  · intro bst
    have hzero : moveDirectionOfKeys
        ⟨false, false, false, false, false, false, bst⟩ = 0 := by
      ext <;> simp [moveDirectionOfKeys]
    have hlen0 : ¬ ((0 : Vec3).length > 0) := by
      rw [Vec3.length_zero_vec]
      norm_num
    simp only [handleFreeCameraMovement, hzero, if_neg hlen0, applyEulerYXZ_zero,
      Vec3.smul_zero_vec, Vec3.add_zero_vec]

/-- Witness for C7: with only the forward key pressed, the movement vector is
non-zero and normalizes to unit length. -/
theorem free_camera_movement_witness :
    moveDirectionOfKeys ⟨true, false, false, false, false, false, false⟩ ≠ 0 ∧
      ((moveDirectionOfKeys
          ⟨true, false, false, false, false, false, false⟩).normalize).length = 1 := by
  have hne : moveDirectionOfKeys
      ⟨true, false, false, false, false, false, false⟩ ≠ 0 := by
    intro h
    have hz := congrArg Vec3.z h
    simp [moveDirectionOfKeys] at hz
  exact ⟨hne, (free_camera_movement
    ⟨true, false, false, false, false, false, false⟩ 0 0 0 0).2.2.2.1 hne⟩

/-- C5 counterexample: with orbitSpeed 1, 64 segments per turn and time 0, the
LAST helix sample (index `64·5 − 1 = 319`) does not sit at the body's current
angle `0·1`; the sample at the current angle is the first one (index 0). -/
theorem helix_last_sample_angle_ne :
    helixSampleAngle 1 ORBIT_SEGMENTS 0 (ORBIT_SEGMENTS * HELIX_TURNS - 1) ≠ 0 * 1 := by
  have hpi := Real.pi_pos
  simp only [helixSampleAngle, ORBIT_SEGMENTS, HELIX_TURNS]
  norm_num
  intro h
  nlinarith [h]

/-- C5 (amended): the helix trail has `64 × 5` samples; sample `i` of the list
is `generateHelixVertex` at `i`; the FIRST sample's angle equals the current
angle `t·s` and sample `i` trails it by `(i/320)·2π·5`, so the sampling grid
spans `2π × HELIX_TURNS`; the longitudinal displacement of sample `i` is
`-(i/320)` times the total trail distance, giving exactly
`forwardDistancePerOrbit = (2π/s) × GALACTIC_MOTION_SPEED` of displacement per
full orbit (64 samples); for positive orbit speed the path is non-closed: the
first and last vertices differ. -/
theorem helix_trail_amended (r s t h : ℝ) (i : ℕ) (hs : 0 < s)
    (hi : i < ORBIT_SEGMENTS * HELIX_TURNS) :
    (generateHelixVertices r s ORBIT_SEGMENTS t h).length = ORBIT_SEGMENTS * HELIX_TURNS
  ∧ ORBIT_SEGMENTS = 64
  ∧ HELIX_TURNS = 5
  ∧ (generateHelixVertices r s ORBIT_SEGMENTS t h)[i]? =
      some (generateHelixVertex r s ORBIT_SEGMENTS t h i)
  ∧ helixSampleAngle s ORBIT_SEGMENTS t 0 = t * s
  ∧ helixSampleAngle s ORBIT_SEGMENTS t i =
      t * s - ((i : ℝ) / 320) * (2 * Real.pi * 5)
  ∧ generateHelixVertex r s ORBIT_SEGMENTS t h i =
      ⟨Real.cos (helixSampleAngle s ORBIT_SEGMENTS t i) * r,
       Real.sin (helixSampleAngle s ORBIT_SEGMENTS t i) * r + h,
       -((i : ℝ) / 320) * (2 * Real.pi / s * GALACTIC_MOTION_SPEED * 5)⟩
  ∧ (generateHelixVertex r s ORBIT_SEGMENTS t h (i + ORBIT_SEGMENTS)).z -
      (generateHelixVertex r s ORBIT_SEGMENTS t h i).z =
        -(2 * Real.pi / s * GALACTIC_MOTION_SPEED)
  ∧ generateHelixVertex r s ORBIT_SEGMENTS t h 0 ≠
      generateHelixVertex r s ORBIT_SEGMENTS t h (ORBIT_SEGMENTS * HELIX_TURNS - 1) := by
  have hpi := Real.pi_pos
  refine ⟨?_, rfl, rfl, ?_, ?_, ?_, ?_, ?_, ?_⟩
  · simp [generateHelixVertices]
  · simp only [generateHelixVertices]
    rw [List.getElem?_map, List.getElem?_range hi]
    rfl
  · simp [helixSampleAngle]
  · simp only [helixSampleAngle, ORBIT_SEGMENTS, HELIX_TURNS]
    push_cast
    ring
  · ext
    · rfl
    · rfl
    · simp only [generateHelixVertex, GALACTIC_MOTION_SPEED, ORBIT_SEGMENTS, HELIX_TURNS]
      push_cast
      ring
  · simp only [generateHelixVertex, GALACTIC_MOTION_SPEED, ORBIT_SEGMENTS, HELIX_TURNS]
    push_cast
    field_simp
    ring
  · intro heq
    have hz := congrArg Vec3.z heq
    have h0 : (generateHelixVertex r s ORBIT_SEGMENTS t h 0).z = 0 := by
      simp [generateHelixVertex]
    have hidx : ORBIT_SEGMENTS * HELIX_TURNS - 1 = 319 := rfl
    have h319 : (generateHelixVertex r s ORBIT_SEGMENTS t h 319).z =
        -((319 : ℝ) / 320 * (Real.pi * 2 / s * 5 * 5)) := by
      simp only [generateHelixVertex, GALACTIC_MOTION_SPEED, ORBIT_SEGMENTS, HELIX_TURNS]
      push_cast
      ring
    rw [hidx, h0, h319] at hz
    have hTpos : 0 < (319 : ℝ) / 320 * (Real.pi * 2 / s * 5 * 5) := by positivity
    linarith [hz, hTpos]

/-- Witness for C5 (amended) at `r = 1, s = 1, t = 0, h = 0, i = 0`. -/
theorem helix_trail_amended_witness :
    (0 : ℝ) < 1 ∧ helixSampleAngle 1 ORBIT_SEGMENTS 0 0 = 0 * 1 :=
  ⟨by norm_num,
    (helix_trail_amended 1 1 0 0 0 (by norm_num) (by norm_num [ORBIT_SEGMENTS, HELIX_TURNS])).2.2.2.2.1⟩

/-- The two-argument arctangent recovers the angle of a positively scaled
cosine/sine pair. -/
theorem atan2_sin_cos_scaled (th r : ℝ) (hr : 0 < r)
    (hth : th ∈ Set.Ioc (-Real.pi) Real.pi) :
    atan2 (Real.sin th * r) (Real.cos th * r) = th := by
  unfold atan2
  have hmul : (⟨Real.cos th * r, Real.sin th * r⟩ : ℂ) =
      (r : ℂ) * ⟨Real.cos th, Real.sin th⟩ := by
    apply Complex.ext <;>
      simp [Complex.mul_re, Complex.mul_im, mul_comm]
  rw [hmul, Complex.arg_real_mul _ hr, Complex.mk_eq_add_mul_I,
    Complex.ofReal_cos, Complex.ofReal_sin]
  exact Complex.arg_cos_add_sin_mul_I hth

/-- The YXZ rotation sends the third basis vector to the third column of its
rotation matrix. -/
theorem applyEulerYXZ_e3 (p yw : ℝ) :
    applyEulerYXZ p yw ⟨0, 0, 1⟩ =
      ⟨Real.sin yw * Real.cos p, -Real.sin p, Real.cos yw * Real.cos p⟩ := by
  ext <;> simp [applyEulerYXZ, rotateX, rotateY]

/-- The YXZ rotation sends the first basis vector to the first column of its
rotation matrix. -/
theorem applyEulerYXZ_e1 (p yw : ℝ) :
    applyEulerYXZ p yw ⟨1, 0, 0⟩ = ⟨Real.cos yw, 0, -Real.sin yw⟩ := by
  ext <;> simp [applyEulerYXZ, rotateX, rotateY]

/-- C8: the camera-mode round trip is lossless for orientation — for any
orbit-mode orientation of zero-roll form `applyEulerYXZ p y` (the form the
trackball controller produces), switching to free-fly re-derives exactly
`(pitch, yaw) = (p, y)` from the orientation, and the free-fly frame
reconstructs exactly the original orientation, so switching back to
orbit-follow with no input in between restores the original orientation. -/
theorem camera_mode_round_trip (p y : ℝ) (hp1 : -(Real.pi / 2) ≤ p)
    (hp2 : p ≤ Real.pi / 2) (hsin : |Real.sin p| < 0.9999999)
    (hy : y ∈ Set.Ioc (-Real.pi) Real.pi) :
    eulerFromOrientationYXZ (applyEulerYXZ p y) = (p, y)
  ∧ roundTripOrientation (applyEulerYXZ p y) = applyEulerYXZ p y := by
  have hcosnn : 0 ≤ Real.cos p := Real.cos_nonneg_of_mem_Icc ⟨hp1, hp2⟩
  have habs := abs_lt.mp hsin
  have hcos : 0 < Real.cos p := by
    rcases hcosnn.lt_or_eq with hlt | heq
    · exact hlt
    · exfalso
      have hpy := Real.sin_sq_add_cos_sq p
      rw [← heq] at hpy
      nlinarith [habs.1, habs.2, hpy]
  have hs1 : -(1 : ℝ) ≤ -Real.sin p := by
    have := Real.sin_le_one p
    linarith
  have hs2 : -Real.sin p ≤ 1 := by
    have := Real.neg_one_le_sin p
    linarith
  have hclamp : clampR (-Real.sin p) (-1) 1 = -Real.sin p := by
    unfold clampR
    rw [min_eq_right hs2, max_eq_right hs1]
  have hext : eulerFromOrientationYXZ (applyEulerYXZ p y) = (p, y) := by
    simp only [eulerFromOrientationYXZ, applyEulerYXZ_e3, applyEulerYXZ_e1]
    have hbranch : |(-Real.sin p : ℝ)| < 0.9999999 := by
      rw [abs_neg]
      exact hsin
    rw [if_pos hbranch, hclamp, neg_neg, Real.arcsin_sin hp1 hp2,
      atan2_sin_cos_scaled y (Real.cos p) hcos hy]
  refine ⟨hext, ?_⟩
  unfold roundTripOrientation
  rw [hext]

/-- Witness for C8 at `p = 0, y = 0` (camera looking straight ahead). -/
theorem camera_mode_round_trip_witness :
    |Real.sin 0| < 0.9999999 ∧
      roundTripOrientation (applyEulerYXZ 0 0) = applyEulerYXZ 0 0 := by
  have hpi := Real.pi_pos
  have hsin : |Real.sin 0| < 0.9999999 := by
    rw [Real.sin_zero, abs_zero]
    norm_num
  exact ⟨hsin,
    (camera_mode_round_trip 0 0 (by linarith) (by linarith) hsin
      ⟨by linarith, by linarith⟩).2⟩

end Solar
